import Mathlib

/-!
Shallow embedding of the polar-plants dashboard core (src/main.py).

The program is a Streamlit dashboard over per-school sensor and growth
tables.  We embed the data-handling core: the Unicode-tolerant file
locator (`find_file_by_keyword`), the two loaders
(`load_environment_data`, `load_growth_data`), and the aggregation
(global environment means, EC-grouped growth means, `optimal_ec`).
Numeric columns are embedded as exact rationals; pandas frames become
lists of records; the keyed pandas structures (dicts of frames, groupby
results) become association lists in key order.
-/

/-- Target EC per school: the `EC_TARGETS` dict of main.py (lines 35-40),
in its literal insertion order. -/
def EC_TARGETS : List (String × ℚ) :=
  [("송도고", 1), ("하늘고", 2), ("아라고", 4), ("동산고", 8)]

/-- The fixed school set, i.e. `EC_TARGETS.keys()`. -/
def schools : List String := EC_TARGETS.map Prod.fst

/-- Dictionary lookup in `EC_TARGETS`; `none` models the NaN produced by
`Series.map` on a key outside the dict. -/
def ecTarget (s : String) : Option ℚ :=
  (EC_TARGETS.find? (fun p => p.1 == s)).map Prod.snd

/-- Unicode normalization is performed by the `unicodedata` library, which
is outside the source; we carry the two normal forms as abstract string
functions. -/
structure Normalizer where
  nfc : String → String
  nfd : String → String

/-- One entry of a directory listing, as seen by `Path.iterdir`. -/
structure DirEntry where
  name : String
  isFile : Bool
deriving DecidableEq, Repr

/-- Python's substring test `needle in hay`. -/
def strContains (hay needle : String) : Bool :=
  decide (List.IsInfix needle.toList hay.toList)

/-- `normalize_name` of main.py (line 52): dispatch on the form string. -/
def normalize_name (N : Normalizer) (name : String) (form : String) : String :=
  if form = "NFC" then N.nfc name else N.nfd name

/-- The loop body of `find_file_by_keyword`: the entry is a file and the
keyword occurs in its name under NFC or NFD normalization. -/
def fileMatches (N : Normalizer) (keyword : String) (p : DirEntry) : Bool :=
  p.isFile &&
    (strContains (normalize_name N p.name "NFC") keyword ||
     strContains (normalize_name N p.name "NFD") keyword)

/-- `find_file_by_keyword` of main.py (lines 55-61): first matching file in
directory-iteration order, else `none`. -/
def find_file_by_keyword (N : Normalizer) : List DirEntry → String → Option DirEntry
  | [], _ => none
  | p :: rest, keyword =>
    if fileMatches N keyword p then some p else find_file_by_keyword N rest keyword

/-- One parsed row of a school's environment CSV (columns `time`,
`temperature`, `humidity`, `ph`, `ec`). -/
structure EnvRow where
  time : String
  temperature : ℚ
  humidity : ℚ
  ph : ℚ
  ec : ℚ
deriving DecidableEq, Repr

/-- An environment row after the loader stamps `df["school"] = school`. -/
structure EnvRecord where
  time : String
  temperature : ℚ
  humidity : ℚ
  ph : ℚ
  ec : ℚ
  school : String
deriving DecidableEq, Repr

/-- Stamping one row with its school of origin (main.py line 74). -/
def tagEnv (school : String) (r : EnvRow) : EnvRecord :=
  ⟨r.time, r.temperature, r.humidity, r.ph, r.ec, school⟩

/-- `load_environment_data` of main.py (lines 66-76).  The argument `av`
abstracts `find_file_by_keyword` plus `pd.read_csv` for the keyword
`"{school}_환경데이터"`: `av s = none` means that school's file was not
located, and the school is skipped (`continue`); otherwise the parsed
rows are stamped and stored under the school key. -/
def load_environment_data (av : String → Option (List EnvRow)) :
    List (String × List EnvRecord) :=
  schools.filterMap (fun s => (av s).map (fun rows => (s, rows.map (tagEnv s))))

/-- One parsed row of a growth-workbook sheet: `생중량(g)` (fresh weight),
`잎 수(장)` (leaf count), `지상부 길이(mm)` (shoot length). -/
structure GrowthRow where
  freshWeight : ℚ
  leafCount : ℚ
  shootLength : ℚ
deriving DecidableEq, Repr

/-- A growth row after the loader stamps `df["school"] = sheet`. -/
structure GrowthRecord where
  freshWeight : ℚ
  leafCount : ℚ
  shootLength : ℚ
  school : String
deriving DecidableEq, Repr

/-- Stamping one growth row with its sheet name (main.py line 88). -/
def tagGrowth (school : String) (r : GrowthRow) : GrowthRecord :=
  ⟨r.freshWeight, r.leafCount, r.shootLength, school⟩

/-- A located growth workbook: its sheets in `xls.sheet_names` order. -/
abbrev Workbook := List (String × List GrowthRow)

/-- The sheet loop of `load_growth_data` (main.py lines 85-90): every sheet
is accepted, parsed and stamped with its own name. -/
def load_growth_sheets (sheets : Workbook) : List (String × List GrowthRecord) :=
  sheets.map (fun p => (p.1, p.2.map (tagGrowth p.1)))

/-- `load_growth_data` of main.py (lines 78-90).  The argument abstracts
`find_file_by_keyword DATA_DIR "생육결과데이터"` plus workbook parsing:
`none` means no workbook file was located, and the loader returns its
`None` signal; otherwise every sheet is loaded. -/
def load_growth_data (wb : Option Workbook) :
    Option (List (String × List GrowthRecord)) :=
  match wb with
  | none => none
  | some sheets => some (load_growth_sheets sheets)

/-- `Series.mean` over exact rationals (division by zero gives 0 in ℚ;
all uses below are over non-empty lists). -/
def mean (xs : List ℚ) : ℚ := xs.sum / (xs.length : ℚ)

/-- `pd.concat(env_data.values())` (main.py lines 155, 228). -/
def concatEnv (envData : List (String × List EnvRecord)) : List EnvRecord :=
  (envData.map Prod.snd).flatten

/-- `avg_temp` of main.py (line 155): mean temperature over the
concatenation of all schools' environment rows. -/
def avg_temp (envData : List (String × List EnvRecord)) : ℚ :=
  mean ((concatEnv envData).map EnvRecord.temperature)

/-- `avg_hum` of main.py (line 156). -/
def avg_hum (envData : List (String × List EnvRecord)) : ℚ :=
  mean ((concatEnv envData).map EnvRecord.humidity)

/-- The per-school weighted contribution: record count times per-school
mean of column `g`.  Used to state that the global mean is
population-weighted. -/
def weightedSum (g : EnvRecord → ℚ) (envData : List (String × List EnvRecord)) : ℚ :=
  (envData.map (fun p => ((p.2.length : ℚ)) * mean (p.2.map g))).sum

/-- Total number of environment records, as a rational. -/
def totalEnvCount (envData : List (String × List EnvRecord)) : ℚ :=
  (envData.map (fun p => ((p.2.length : ℚ)))).sum

/-- The mean-of-per-school-means of column `g` — what the spec says the
global mean is NOT. -/
def meanOfSchoolMeans (g : EnvRecord → ℚ) (envData : List (String × List EnvRecord)) : ℚ :=
  mean (envData.map (fun p => mean (p.2.map g)))

/-- One row of the per-school averages table built in Tab 2
(main.py lines 173-179). -/
structure EnvAvgRow where
  school : String
  temperature : ℚ
  humidity : ℚ
  ph : ℚ
  ec : ℚ
deriving DecidableEq, Repr

/-- Python dict lookup `env_data[school]`, as a partial lookup: `none`
models the `KeyError` case. -/
def lookupEnv (envData : List (String × List EnvRecord)) (s : String) :
    Option (List EnvRecord) :=
  (envData.find? (fun p => p.1 == s)).map Prod.snd

/-- The averages row appended for one school (main.py lines 173-179). -/
def envAvgRow (s : String) (df : List EnvRecord) : EnvAvgRow :=
  ⟨s, mean (df.map EnvRecord.temperature), mean (df.map EnvRecord.humidity),
   mean (df.map EnvRecord.ph), mean (df.map EnvRecord.ec)⟩

/-- The `avg_rows` loop of main.py (lines 170-180).  `df = env_data[school]`
raises `KeyError(school)` when the selected school is absent from the
mapping; the uncaught exception aborts the whole render, which we model as
`Except.error` carrying the school name, produced at the first absent
school in selection order. -/
def avg_rows (envData : List (String × List EnvRecord)) :
    List String → Except String (List EnvAvgRow)
  | [] => Except.ok []
  | s :: rest =>
    match lookupEnv envData s with
    | none => Except.error s
    | some df =>
      match avg_rows envData rest with
      | Except.error e => Except.error e
      | Except.ok tail => Except.ok (envAvgRow s df :: tail)

/-- `growth_all = pd.concat(growth_data.values())` (main.py line 248). -/
def growth_all (gd : List (String × List GrowthRecord)) : List GrowthRecord :=
  (gd.map Prod.snd).flatten

/-- The derived EC column `growth_all["school"].map(EC_TARGETS)`
(main.py line 249); `none` models the NaN a sheet name outside the fixed
school set receives. -/
def derivedEC (r : GrowthRecord) : Option ℚ := ecTarget r.school

/-- The rows falling into the groupby bucket of EC level `e`; rows whose
derived EC is NaN (`none`) fall into no bucket (pandas drops NaN keys). -/
def ecGroup (rs : List GrowthRecord) (e : ℚ) : List GrowthRecord :=
  rs.filter (fun r => derivedEC r == some e)

/-- `groupby("EC")["생중량(g)"].mean()` at key `e` (main.py line 251). -/
def ecMeanWeight (rs : List GrowthRecord) (e : ℚ) : ℚ :=
  mean ((ecGroup rs e).map GrowthRecord.freshWeight)

/-- `groupby("EC").size()` at key `e` (main.py line 289). -/
def ecGroupSize (rs : List GrowthRecord) (e : ℚ) : ℕ :=
  (ecGroup rs e).length

/-- Insertion into a strictly ascending list of keys, dropping duplicates:
the index-building step of pandas `groupby` (sorted unique keys). -/
def insertKey (e : ℚ) : List ℚ → List ℚ
  | [] => [e]
  | k :: ks => if e < k then e :: k :: ks else if e = k then k :: ks else k :: insertKey e ks

/-- The groupby index: sorted distinct derived-EC values present in the
data (NaN keys dropped). -/
def ecKeys (rs : List GrowthRecord) : List ℚ :=
  (rs.filterMap derivedEC).foldr insertKey []

/-- `ec_weight` of main.py (line 251): the groupby-mean Series as an
association list in ascending key order. -/
def ec_weight (rs : List GrowthRecord) : List (ℚ × ℚ) :=
  (ecKeys rs).map (fun e => (e, ecMeanWeight rs e))

/-- The scan of `Series.idxmax`: keep the running best, replace it only on
a strictly larger value, return the best's key. -/
def idxmaxAux : ℚ × ℚ → List (ℚ × ℚ) → ℚ
  | best, [] => best.1
  | best, p :: ps => if best.2 < p.2 then idxmaxAux p ps else idxmaxAux best ps

/-- `Series.idxmax`: label of the first occurrence of the maximum value;
`none` on an empty series (pandas raises there). -/
def idxmax : List (ℚ × ℚ) → Option ℚ
  | [] => none
  | p :: ps => some (idxmaxAux p ps)

/-- `optimal_ec = ec_weight.idxmax()` of main.py (line 252). -/
def optimal_ec (rs : List GrowthRecord) : Option ℚ :=
  idxmax (ec_weight rs)

/-- The fatal guard of main.py (line 99):
`if not env_data or growth_data is None`. -/
def noDataGuard (envData : List (String × List EnvRecord))
    (growth : Option (List (String × List GrowthRecord))) : Bool :=
  envData.isEmpty || growth.isNone

/-- The scalar aggregates the three tabs consume. -/
structure Aggregates where
  avgTemp : ℚ
  avgHum : ℚ
  totalPlants : ℕ
  optimalEC : Option ℚ
deriving DecidableEq, Repr

/-- The downstream aggregate computation (main.py lines 155-158, 248-252). -/
def computeAggregates (envData : List (String × List EnvRecord))
    (gd : List (String × List GrowthRecord)) : Aggregates :=
  ⟨avg_temp envData, avg_hum envData, (growth_all gd).length,
   optimal_ec (growth_all gd)⟩

/-- The pipeline around the guard: `st.stop()` (main.py lines 99-101)
halts the script, so no aggregates exist; otherwise the tabs compute
them from the loaded data. -/
def run_pipeline (envData : List (String × List EnvRecord))
    (growth : Option (List (String × List GrowthRecord))) : Option Aggregates :=
  if noDataGuard envData growth then none
  else
    match growth with
    | none => none
    | some gd => some (computeAggregates envData gd)

/-- A spreadsheet cell: a number or a string. -/
inductive Cell where
  | num (q : ℚ)
  | str (s : String)
deriving DecidableEq, Repr

/-- A table as exported: a list of rows of cells. -/
abbrev Table := List (List Cell)

/-- One token of the serialized byte stream: a cell payload or a
row terminator. -/
inductive XToken where
  | cell (c : Cell)
  | endRow
deriving DecidableEq, Repr

/-- Modelled from the spec: `all_env.to_excel(buffer)` (main.py line 232)
serializes the table through the external openpyxl library, which is not
part of src; per the spec the stream encodes the rows and their cell
values.  Each row becomes its cells followed by a row terminator. -/
def to_excel (t : Table) : List XToken :=
  (t.map (fun row => row.map XToken.cell ++ [XToken.endRow])).flatten

/-- Modelled from the spec: re-parsing the spreadsheet stream, reading
cells into the current row and closing it at each row terminator. -/
def read_excelAux : List XToken → List Cell → Table
  | [], _ => []
  | XToken.cell c :: rest, acc => read_excelAux rest (acc ++ [c])
  | XToken.endRow :: rest, acc => acc :: read_excelAux rest []

/-- Modelled from the spec: the re-parser entry point. -/
def read_excel (s : List XToken) : Table := read_excelAux s []

/-- The cells of one row of the unified environment export. -/
def envRecordCells (r : EnvRecord) : List Cell :=
  [Cell.str r.time, Cell.num r.temperature, Cell.num r.humidity,
   Cell.num r.ph, Cell.num r.ec, Cell.str r.school]

/-- `all_env` of main.py (line 228), as the exported table. -/
def all_env (envData : List (String × List EnvRecord)) : Table :=
  (concatEnv envData).map envRecordCells

/-! ## Sample data used by witnesses and counterexamples -/

/-- A sample environment row at 20 °C. -/
def envRowA : EnvRow := ⟨"t1", 20, 50, 7, 1⟩

/-- A sample environment row at 30 °C. -/
def envRowB : EnvRow := ⟨"t2", 30, 60, 7, 2⟩

/-- Sample file availability: every school's environment file is present
except 동산고's. -/
def sampleAv : String → Option (List EnvRow) :=
  fun s => if s = "동산고" then none else some [envRowA]

/-- The environment mapping loaded from `sampleAv`: three schools present,
동산고 absent. -/
def sampleEnvData : List (String × List EnvRecord) :=
  load_environment_data sampleAv

/-- The spec's unequal-count example: 10 readings at 20 °C and 2 readings
at 30 °C. -/
def specExampleEnv : List (String × List EnvRecord) :=
  [("송도고", List.replicate 10 (tagEnv "송도고" envRowA)),
   ("하늘고", List.replicate 2 (tagEnv "하늘고" envRowB))]

/-- A growth workbook realizing the spec's tie example: EC-grouped mean
fresh weights 1.0 ↦ 5, 2.0 ↦ 9, 4.0 ↦ 9, 8.0 ↦ 3. -/
def sampleWorkbook : Workbook :=
  [("송도고", [⟨5, 4, 100⟩]), ("하늘고", [⟨9, 5, 110⟩]),
   ("아라고", [⟨9, 6, 120⟩]), ("동산고", [⟨3, 2, 80⟩])]

/-- The unified growth table loaded from `sampleWorkbook`. -/
def sampleGrowth : List GrowthRecord :=
  growth_all (load_growth_sheets sampleWorkbook)

/-- A workbook whose only sheet name is outside the fixed school set. -/
def strangeWorkbook : Workbook := [("외부고", [⟨5, 4, 100⟩])]

/-- A trivial normalizer for concrete witnesses. -/
def N0 : Normalizer := ⟨fun s => s, fun s => s⟩

/-- A sample directory listing. -/
def sampleDir : List DirEntry :=
  [⟨"readme.txt", true⟩, ⟨"생육결과데이터.xlsx", true⟩]

/-! ## Export round-trip (spec-modelled serialization) -/

/-- Reading one serialized row prepends it, completed with the
accumulator, to the parse of the remainder. -/
theorem read_excelAux_row (row : List Cell) :
    ∀ (rest : List XToken) (acc : List Cell),
      read_excelAux (row.map XToken.cell ++ [XToken.endRow] ++ rest) acc =
        (acc ++ row) :: read_excelAux rest [] := by
  induction row with
  | nil => intro rest acc; simp [read_excelAux]
  | cons c cs ih =>
    intro rest acc
    have h1 : read_excelAux ((c :: cs).map XToken.cell ++ [XToken.endRow] ++ rest) acc =
        read_excelAux (cs.map XToken.cell ++ [XToken.endRow] ++ rest) (acc ++ [c]) := rfl
    rw [h1, ih rest (acc ++ [c])]
    simp

/-- Re-parsing a serialized table recovers it exactly. -/
theorem read_to_excel (t : Table) : read_excel (to_excel t) = t := by
  induction t with
  | nil => rfl
  | cons row t ih =>
    show read_excelAux ((row.map XToken.cell ++ [XToken.endRow]) ++ to_excel t) [] = row :: t
    rw [read_excelAux_row row (to_excel t) []]
    simp [read_excel] at ih
    simp [ih]

/-- C9: serializing the unified environment table to the spreadsheet
stream and re-parsing yields a table with the same rows (hence the same
row count and cell values) as the in-memory table. -/
theorem all_env_export_roundtrip (envData : List (String × List EnvRecord)) :
    read_excel (to_excel (all_env envData)) = all_env envData ∧
    (read_excel (to_excel (all_env envData))).length = (all_env envData).length := by
  refine ⟨read_to_excel _, ?_⟩
  rw [read_to_excel]

/-! ## Missing growth workbook is fatal -/

/-- C5: when no growth workbook file is located the loader returns its
`none` signal — which no located workbook (in particular not an empty
one) ever produces — and the pipeline guard halts with no downstream
aggregates at all. -/
theorem missing_growth_workbook_fatal (envData : List (String × List EnvRecord)) :
    load_growth_data none = none ∧
    (∀ sheets : Workbook, load_growth_data (some sheets) ≠ none) ∧
    run_pipeline envData (load_growth_data none) = none := by
  refine ⟨rfl, ?_, ?_⟩
  · intro sheets hcontra
    simp [load_growth_data] at hcontra
  · simp [run_pipeline, noDataGuard, load_growth_data]

/-- C5 witness at concrete inputs. -/
theorem missing_growth_workbook_fatal_witness :
    run_pipeline sampleEnvData (load_growth_data none) = none ∧
    load_growth_data (some []) ≠ none :=
  ⟨(missing_growth_workbook_fatal sampleEnvData).2.2,
   (missing_growth_workbook_fatal sampleEnvData).2.1 []⟩

/-- C10: the loader's `none` signal appears exactly when no workbook file
is located; a located workbook with zero sheets yields the empty mapping,
and the fatal guard — which only tests for `none` — lets the empty
mapping through whenever any environment data is present. -/
theorem growth_none_iff_no_workbook (envData : List (String × List EnvRecord)) :
    (∀ wb : Option Workbook, load_growth_data wb = none ↔ wb = none) ∧
    load_growth_data (some []) = some [] ∧
    (envData ≠ [] →
      noDataGuard envData (load_growth_data (some [])) = false ∧
      run_pipeline envData (load_growth_data (some [])) ≠ none) := by
  refine ⟨?_, rfl, ?_⟩
  · intro wb
    cases wb <;> simp [load_growth_data]
  · intro h
    have hne : envData.isEmpty = false := by
      cases envData with
      | nil => exact absurd rfl h
      | cons p e => rfl
    constructor
    · simp [noDataGuard, load_growth_data, hne]
    · simp [run_pipeline, noDataGuard, load_growth_data, hne]

/-- C10 witness: with sample environment data present, a zero-sheet
workbook passes the fatal guard. -/
theorem growth_none_iff_no_workbook_witness :
    noDataGuard sampleEnvData (load_growth_data (some [])) = false ∧
    run_pipeline sampleEnvData (load_growth_data (some [])) ≠ none :=
  (growth_none_iff_no_workbook sampleEnvData).2.2 (by decide)

/-! ## Global environment means are population-weighted -/

/-- Summing a mapped column over a flattened list of lists equals summing
the per-list column sums. -/
theorem sum_map_flatten_env (g : EnvRecord → ℚ) :
    ∀ L : List (List EnvRecord),
      ((L.flatten).map g).sum = (L.map (fun l => ((l.map g).sum))).sum
  | [] => by simp
  | l :: L => by simp [sum_map_flatten_env g L, Function.comp_def]

/-- The rational length of a flattened list of lists is the sum of the
rational lengths. -/
theorem length_flatten_env :
    ∀ L : List (List EnvRecord),
      (((L.flatten).length : ℚ)) = (L.map (fun l => ((l.length : ℚ)))).sum
  | [] => by simp
  | l :: L => by
    simp [length_flatten_env L, Function.comp_def]

/-- When every school has at least one record, the weighted contribution
sum collapses to the plain per-school column sums. -/
theorem weightedSum_eq_sum (g : EnvRecord → ℚ) :
    ∀ envData : List (String × List EnvRecord), (∀ p ∈ envData, p.2 ≠ []) →
      weightedSum g envData = (envData.map (fun p => ((p.2.map g).sum))).sum
  | [], _ => by simp [weightedSum]
  | p :: e, h => by
    have hp : p.2 ≠ [] := h p (List.mem_cons_self p e)
    have hlen : ((p.2.length : ℚ)) ≠ 0 := by
      intro hzero
      exact hp (List.length_eq_zero.mp (by exact_mod_cast hzero))
    have hterm : ((p.2.length : ℚ)) * mean (p.2.map g) = (p.2.map g).sum := by
      rw [mean, List.length_map, mul_comm]
      exact div_mul_cancel₀ _ hlen
    have ih := weightedSum_eq_sum g e (fun q hq => h q (List.mem_cons_of_mem p hq))
    calc weightedSum g (p :: e)
        = ((p.2.length : ℚ)) * mean (p.2.map g) + weightedSum g e := by
          simp [weightedSum]
      _ = (p.2.map g).sum + (e.map (fun q => ((q.2.map g).sum))).sum := by
          rw [hterm, ih]
      _ = ((p :: e).map (fun q => ((q.2.map g).sum))).sum := by simp

/-- The mean of a column over the concatenated population equals the
count-weighted combination of the per-school means. -/
theorem mean_concat_weighted (g : EnvRecord → ℚ)
    (envData : List (String × List EnvRecord)) (h : ∀ p ∈ envData, p.2 ≠ []) :
    mean ((concatEnv envData).map g) =
      weightedSum g envData / totalEnvCount envData := by
  rw [mean, List.length_map, weightedSum_eq_sum g envData h]
  show ((envData.map Prod.snd).flatten.map g).sum / (((envData.map Prod.snd).flatten.length : ℚ)) = _
  rw [sum_map_flatten_env g, length_flatten_env]
  simp only [totalEnvCount, List.map_map, Function.comp_def]

/-- C2: the global mean temperature (and humidity) is the mean over the
concatenation of all per-school sequences — the population-weighted mean
in which a school with more readings weighs proportionally more — and it
differs from the mean of the per-school means on the spec's
unequal-count example. -/
theorem global_env_means_population_weighted
    (envData : List (String × List EnvRecord)) (h : ∀ p ∈ envData, p.2 ≠ []) :
    avg_temp envData = weightedSum EnvRecord.temperature envData / totalEnvCount envData ∧
    avg_hum envData = weightedSum EnvRecord.humidity envData / totalEnvCount envData ∧
    avg_temp specExampleEnv ≠ meanOfSchoolMeans EnvRecord.temperature specExampleEnv := by
  refine ⟨mean_concat_weighted _ _ h, mean_concat_weighted _ _ h, ?_⟩
  have h1 : avg_temp specExampleEnv = 65 / 3 := by
    norm_num [avg_temp, mean, concatEnv, specExampleEnv, tagEnv, envRowA, envRowB,
      List.map_replicate, List.sum_replicate, List.length_replicate, nsmul_eq_mul]
  have h2 : meanOfSchoolMeans EnvRecord.temperature specExampleEnv = 25 := by
    norm_num [meanOfSchoolMeans, mean, specExampleEnv, tagEnv, envRowA, envRowB,
      List.map_replicate, List.sum_replicate, List.length_replicate, nsmul_eq_mul]
  rw [h1, h2]
  norm_num

/-- C2 witness: the spec example (10 readings at 20 °C, 2 readings at
30 °C) instantiates the theorem. -/
theorem global_env_means_population_weighted_witness :
    avg_temp specExampleEnv =
      weightedSum EnvRecord.temperature specExampleEnv / totalEnvCount specExampleEnv ∧
    avg_hum specExampleEnv =
      weightedSum EnvRecord.humidity specExampleEnv / totalEnvCount specExampleEnv ∧
    avg_temp specExampleEnv ≠ meanOfSchoolMeans EnvRecord.temperature specExampleEnv :=
  global_env_means_population_weighted specExampleEnv (by decide)

/-! ## FileLocator: first match under either normalization -/

/-- C3: for every directory listing and non-empty keyword, if some file's
name contains the keyword under NFC or NFD normalization then
`find_file_by_keyword` returns the first such file in iteration order,
and if no file matches it returns the not-found signal `none`. -/
theorem find_file_by_keyword_spec (N : Normalizer) (dir : List DirEntry)
    (keyword : String) (hk : keyword ≠ "") :
    ((∀ p ∈ dir, fileMatches N keyword p = false) →
       find_file_by_keyword N dir keyword = none) ∧
    ((∃ p ∈ dir, fileMatches N keyword p = true) →
       ∃ p pre post, find_file_by_keyword N dir keyword = some p ∧
         fileMatches N keyword p = true ∧ dir = pre ++ p :: post ∧
         ∀ q ∈ pre, fileMatches N keyword q = false) := by
  induction dir with
  | nil =>
    constructor
    · intro; rfl
    · rintro ⟨p, hp, -⟩
      exact absurd hp (List.not_mem_nil p)
  | cons p rest ih =>
    cases hmb : fileMatches N keyword p with
    | true =>
      constructor
      · intro hall
        exact absurd (hall p (List.mem_cons_self p rest)) (by simp [hmb])
      · intro _
        refine ⟨p, [], rest, ?_, hmb, by simp, by simp⟩
        simp [find_file_by_keyword, hmb]
    | false =>
      have hstep : find_file_by_keyword N (p :: rest) keyword =
          find_file_by_keyword N rest keyword := by
        simp [find_file_by_keyword, hmb]
      constructor
      · intro hall
        rw [hstep]
        exact ih.1 (fun q hq => hall q (List.mem_cons_of_mem p hq))
      · rintro ⟨q, hq, hqt⟩
        rcases List.mem_cons.mp hq with rfl | hq'
        · exact absurd hqt (by simp [hmb])
        · obtain ⟨p', pre, post, hfind, hmt, hsplit, hpre⟩ := ih.2 ⟨q, hq', hqt⟩
          refine ⟨p', p :: pre, post, ?_, hmt, ?_, ?_⟩
          · rw [hstep]; exact hfind
          · rw [List.cons_append, hsplit]
          · intro x hx
            rcases List.mem_cons.mp hx with rfl | hx'
            · exact hmb
            · exact hpre x hx'

/-- C3 witness: with a trivial normalizer, the locator finds the workbook
file in the sample directory. -/
theorem find_file_by_keyword_witness :
    ∃ p pre post, find_file_by_keyword N0 sampleDir "생육결과데이터" = some p ∧
      fileMatches N0 "생육결과데이터" p = true ∧ sampleDir = pre ++ p :: post ∧
      ∀ q ∈ pre, fileMatches N0 "생육결과데이터" q = false :=
  (find_file_by_keyword_spec N0 sampleDir "생육결과데이터" (by decide)).2
    ⟨⟨"생육결과데이터.xlsx", true⟩, by decide, by decide⟩

/-! ## Derived EC comes from the fixed mapping -/

/-- Looking up a pair of the fixed dict returns its value. -/
theorem ecTarget_of_mem (s : String) (t : ℚ) (h : (s, t) ∈ EC_TARGETS) :
    ecTarget s = some t := by
  simp only [EC_TARGETS, List.mem_cons, List.not_mem_nil, or_false,
    Prod.mk.injEq] at h
  rcases h with ⟨rfl, rfl⟩ | ⟨rfl, rfl⟩ | ⟨rfl, rfl⟩ | ⟨rfl, rfl⟩ <;> decide

/-- C4: every record of the unified growth table draws its derived EC
column from the fixed School→target-EC mapping for its school tag; the
derived EC is a function of the school tag alone, so it can never come
from the measured EC column of the environment data. -/
theorem derived_ec_from_fixed_mapping (sheets : Workbook) :
    (∀ r ∈ growth_all (load_growth_sheets sheets),
        ∀ t, (r.school, t) ∈ EC_TARGETS → derivedEC r = some t) ∧
    (∀ r₁ r₂ : GrowthRecord, r₁.school = r₂.school → derivedEC r₁ = derivedEC r₂) := by
  constructor
  · intro r _ t ht
    exact ecTarget_of_mem r.school t ht
  · intro r₁ r₂ h
    simp only [derivedEC, h]

/-- C4 witness: the 하늘고 record of the sample workbook derives EC 2. -/
theorem derived_ec_from_fixed_mapping_witness :
    derivedEC (tagGrowth "하늘고" ⟨9, 5, 110⟩) = some 2 :=
  (derived_ec_from_fixed_mapping sampleWorkbook).1 (tagGrowth "하늘고" ⟨9, 5, 110⟩)
    (by decide) 2 (by decide)

/-! ## Optimal EC: first maximum over ascending keys -/

/-- Membership after inserting a key. -/
theorem mem_insertKey (x e : ℚ) :
    ∀ ks : List ℚ, x ∈ insertKey e ks ↔ x = e ∨ x ∈ ks
  | [] => by simp [insertKey]
  | k :: ks => by
    by_cases h1 : e < k
    · simp only [insertKey, if_pos h1, List.mem_cons]
    · by_cases h2 : e = k
      · subst h2
        have hstep : insertKey e (e :: ks) = e :: ks := by
          simp [insertKey, h1]
        rw [hstep]
        simp only [List.mem_cons]
        tauto
      · simp only [insertKey, if_neg h1, if_neg h2, List.mem_cons,
          mem_insertKey x e ks]
        tauto

/-- Inserting a key preserves strict ascending order. -/
theorem insertKey_pairwise (e : ℚ) :
    ∀ ks : List ℚ, ks.Pairwise (· < ·) → (insertKey e ks).Pairwise (· < ·)
  | [], _ => by simp [insertKey]
  | k :: ks, h => by
    rcases List.pairwise_cons.mp h with ⟨hk, hks⟩
    by_cases h1 : e < k
    · simp only [insertKey, if_pos h1]
      refine List.pairwise_cons.mpr ⟨?_, h⟩
      intro x hx
      rcases List.mem_cons.mp hx with rfl | hx'
      · exact h1
      · exact h1.trans (hk x hx')
    · by_cases h2 : e = k
      · simp only [insertKey, if_neg h1, if_pos h2]
        exact h
      · simp only [insertKey, if_neg h1, if_neg h2]
        have hke : k < e := lt_of_le_of_ne (not_lt.mp h1) (fun hh => h2 hh.symm)
        refine List.pairwise_cons.mpr ⟨?_, insertKey_pairwise e ks hks⟩
        intro x hx
        rcases (mem_insertKey x e ks).mp hx with rfl | hx'
        · exact hke
        · exact hk x hx'

/-- The groupby index is strictly ascending. -/
theorem ecKeys_pairwise (rs : List GrowthRecord) :
    (ecKeys rs).Pairwise (· < ·) := by
  show ((rs.filterMap derivedEC).foldr insertKey []).Pairwise (· < ·)
  induction rs.filterMap derivedEC with
  | nil => exact List.Pairwise.nil
  | cons v vs ih => exact insertKey_pairwise v _ ih

/-- The groupby index holds exactly the derived EC values present. -/
theorem mem_ecKeys (rs : List GrowthRecord) (x : ℚ) :
    x ∈ ecKeys rs ↔ x ∈ rs.filterMap derivedEC := by
  show x ∈ (rs.filterMap derivedEC).foldr insertKey [] ↔ _
  induction rs.filterMap derivedEC with
  | nil => simp
  | cons v vs ih => simp [mem_insertKey, ih]

/-- The idxmax scan over pairs `(k, f k)` with strictly ascending keys
returns the least key attaining the maximal value. -/
theorem idxmaxAux_spec (f : ℚ → ℚ) :
    ∀ (ks : List ℚ) (b : ℚ), (∀ k ∈ ks, b < k) → ks.Pairwise (· < ·) →
      ∀ r, idxmaxAux (b, f b) (ks.map (fun k => (k, f k))) = r →
        r ∈ b :: ks ∧ (∀ k ∈ b :: ks, f k ≤ f r) ∧
        (∀ k ∈ b :: ks, f k = f r → r ≤ k)
  | [], b, _, _, r, hr => by
    simp only [List.map_nil, idxmaxAux] at hr
    subst hr
    refine ⟨List.mem_cons_self _ _, ?_, ?_⟩ <;> intro k hk
    · rcases List.mem_cons.mp hk with rfl | hk'
      · exact le_refl _
      · exact absurd hk' (List.not_mem_nil k)
    · rcases List.mem_cons.mp hk with rfl | hk'
      · intro; exact le_refl _
      · exact absurd hk' (List.not_mem_nil k)
  | k :: ks, b, hb, hp, r, hr => by
    rcases List.pairwise_cons.mp hp with ⟨hk, hks⟩
    by_cases hlt : f b < f k
    · have hr' : idxmaxAux (k, f k) (ks.map (fun x => (x, f x))) = r := by
        simpa only [List.map_cons, idxmaxAux, if_pos hlt] using hr
      obtain ⟨hm, hub, hle⟩ := idxmaxAux_spec f ks k hk hks r hr'
      have hkr : f k ≤ f r := hub k (List.mem_cons_self _ _)
      refine ⟨List.mem_cons_of_mem b hm, ?_, ?_⟩
      · intro x hx
        rcases List.mem_cons.mp hx with rfl | hx'
        · exact le_of_lt (lt_of_lt_of_le hlt hkr)
        · exact hub x hx'
      · intro x hx hfx
        rcases List.mem_cons.mp hx with rfl | hx'
        · exact absurd (hfx ▸ lt_of_lt_of_le hlt hkr) (lt_irrefl _)
        · exact hle x hx' hfx
    · have hr' : idxmaxAux (b, f b) (ks.map (fun x => (x, f x))) = r := by
        simpa only [List.map_cons, idxmaxAux, if_neg hlt] using hr
      have hb' : ∀ x ∈ ks, b < x := fun x hx => hb x (List.mem_cons_of_mem k hx)
      obtain ⟨hm, hub, hle⟩ := idxmaxAux_spec f ks b hb' hks r hr'
      have hfk : f k ≤ f b := not_lt.mp hlt
      have hfb : f b ≤ f r := hub b (List.mem_cons_self _ _)
      refine ⟨?_, ?_, ?_⟩
      · rcases List.mem_cons.mp hm with rfl | hm'
        · exact List.mem_cons_self _ _
        · exact List.mem_cons_of_mem _ (List.mem_cons_of_mem _ hm')
      · intro x hx
        rcases List.mem_cons.mp hx with rfl | hx'
        · exact hfb
        rcases List.mem_cons.mp hx' with rfl | hx''
        · exact le_trans hfk hfb
        · exact hub x (List.mem_cons_of_mem b hx'')
      · intro x hx hfx
        rcases List.mem_cons.mp hx with rfl | hx'
        · exact hle x (List.mem_cons_self _ _) hfx
        rcases List.mem_cons.mp hx' with rfl | hx''
        · have h1 : f b = f r := le_antisymm hfb (hfx ▸ hfk)
          have h2 : r ≤ b := hle b (List.mem_cons_self _ _) h1
          exact le_of_lt (lt_of_le_of_lt h2 (hb x (List.mem_cons_self _ _)))
        · exact hle x (List.mem_cons_of_mem b hx'') hfx

/-- C1: on any growth table in which some record has a derived EC value,
`optimal_ec` returns an EC level actually present in the data whose
EC-grouped mean fresh weight is maximal, and among exact ties it returns
the lowest EC value. -/
theorem optimal_ec_least_max_mean (rs : List GrowthRecord)
    (h : rs.filterMap derivedEC ≠ []) :
    ∃ e, optimal_ec rs = some e ∧ e ∈ ecKeys rs ∧
      (∃ r ∈ rs, derivedEC r = some e) ∧
      (∀ k ∈ ecKeys rs, ecMeanWeight rs k ≤ ecMeanWeight rs e) ∧
      (∀ k ∈ ecKeys rs, ecMeanWeight rs k = ecMeanWeight rs e → e ≤ k) := by
  have hne : ecKeys rs ≠ [] := by
    rcases List.exists_mem_of_ne_nil _ h with ⟨v, hv⟩
    intro hnil
    have hmem := (mem_ecKeys rs v).mpr hv
    rw [hnil] at hmem
    exact List.not_mem_nil v hmem
  rcases hk0 : ecKeys rs with - | ⟨k0, ks⟩
  · exact absurd hk0 hne
  · have hp := ecKeys_pairwise rs
    rw [hk0] at hp
    rcases List.pairwise_cons.mp hp with ⟨hk, hks⟩
    obtain ⟨hm, hub, hle⟩ :=
      idxmaxAux_spec (ecMeanWeight rs) ks k0 hk hks
        (idxmaxAux (k0, ecMeanWeight rs k0)
          (ks.map (fun k => (k, ecMeanWeight rs k)))) rfl
    refine ⟨idxmaxAux (k0, ecMeanWeight rs k0)
      (ks.map (fun k => (k, ecMeanWeight rs k))), ?_, ?_, ?_, ?_, ?_⟩
    · show idxmax (ec_weight rs) = _
      rw [ec_weight, hk0, List.map_cons, idxmax]
    · exact hm
    · have hmem := (mem_ecKeys rs _).mp (by rw [hk0]; exact hm)
      rcases List.mem_filterMap.mp hmem with ⟨r, hr, hder⟩
      exact ⟨r, hr, hder⟩
    · intro k hkmem
      exact hub k hkmem
    · intro k hkmem
      exact hle k hkmem

/-- C1 witness: the sample growth table gives EC-grouped mean fresh
weights 1 ↦ 5, 2 ↦ 9, 4 ↦ 9, 8 ↦ 3, and `optimal_ec` returns the lowest
tied key, 2. -/
theorem optimal_ec_least_max_mean_witness :
    (∃ e, optimal_ec sampleGrowth = some e ∧ e ∈ ecKeys sampleGrowth ∧
      (∃ r ∈ sampleGrowth, derivedEC r = some e) ∧
      (∀ k ∈ ecKeys sampleGrowth,
        ecMeanWeight sampleGrowth k ≤ ecMeanWeight sampleGrowth e) ∧
      (∀ k ∈ ecKeys sampleGrowth,
        ecMeanWeight sampleGrowth k = ecMeanWeight sampleGrowth e → e ≤ k)) ∧
    optimal_ec sampleGrowth = some 2 := by
  refine ⟨optimal_ec_least_max_mean sampleGrowth (by decide), ?_⟩
  have hkeys : ecKeys sampleGrowth = [1, 2, 4, 8] := by decide
  have hg1 : ecGroup sampleGrowth 1 = [tagGrowth "송도고" ⟨5, 4, 100⟩] := by decide
  have hg2 : ecGroup sampleGrowth 2 = [tagGrowth "하늘고" ⟨9, 5, 110⟩] := by decide
  have hg4 : ecGroup sampleGrowth 4 = [tagGrowth "아라고" ⟨9, 6, 120⟩] := by decide
  have hg8 : ecGroup sampleGrowth 8 = [tagGrowth "동산고" ⟨3, 2, 80⟩] := by decide
  have hm1 : ecMeanWeight sampleGrowth 1 = 5 := by
    rw [ecMeanWeight, hg1]; norm_num [mean, tagGrowth]
  have hm2 : ecMeanWeight sampleGrowth 2 = 9 := by
    rw [ecMeanWeight, hg2]; norm_num [mean, tagGrowth]
  have hm4 : ecMeanWeight sampleGrowth 4 = 9 := by
    rw [ecMeanWeight, hg4]; norm_num [mean, tagGrowth]
  have hm8 : ecMeanWeight sampleGrowth 8 = 3 := by
    rw [ecMeanWeight, hg8]; norm_num [mean, tagGrowth]
  show idxmax (ec_weight sampleGrowth) = some 2
  rw [ec_weight, hkeys]
  simp only [List.map_cons, List.map_nil, hm1, hm2, hm4, hm8]
  norm_num [idxmax, idxmaxAux]

/-! ## Unmapped sheet names -/

/-- C7: a growth-workbook sheet whose name is outside the fixed school set
is still loaded — its records are tagged with the sheet name and appear in
the unified growth table used for the raw export — but their derived-EC
field is unset and they belong to no EC groupby bucket, so they are
excluded from every EC-grouped mean and count. -/
theorem unmapped_sheet_records (sheets : Workbook) (name : String)
    (rows : List GrowthRow) (hmem : (name, rows) ∈ sheets)
    (hname : ecTarget name = none) :
    ∀ row ∈ rows,
      tagGrowth name row ∈ growth_all (load_growth_sheets sheets) ∧
      (tagGrowth name row).school = name ∧
      derivedEC (tagGrowth name row) = none ∧
      ∀ e, tagGrowth name row ∉ ecGroup (growth_all (load_growth_sheets sheets)) e := by
  intro row hrow
  have h1 : (name, rows.map (tagGrowth name)) ∈ load_growth_sheets sheets := by
    have := List.mem_map_of_mem
      (fun p : String × List GrowthRow => (p.1, p.2.map (tagGrowth p.1))) hmem
    simpa [load_growth_sheets] using this
  have h2 : tagGrowth name row ∈ growth_all (load_growth_sheets sheets) := by
    refine List.mem_flatten.mpr ⟨rows.map (tagGrowth name), ?_, ?_⟩
    · exact List.mem_map_of_mem Prod.snd h1
    · exact List.mem_map_of_mem (tagGrowth name) hrow
  have hder : derivedEC (tagGrowth name row) = none := by
    show ecTarget name = none
    exact hname
  refine ⟨h2, rfl, hder, ?_⟩
  intro e hin
  have hcond := (List.mem_filter.mp hin).2
  rw [hder] at hcond
  simp at hcond

/-- C7 witness: the 외부고 sheet of the strange workbook is loaded, tagged,
EC-less and outside every EC bucket. -/
theorem unmapped_sheet_records_witness :
    tagGrowth "외부고" ⟨5, 4, 100⟩ ∈ growth_all (load_growth_sheets strangeWorkbook) ∧
    (tagGrowth "외부고" ⟨5, 4, 100⟩).school = "외부고" ∧
    derivedEC (tagGrowth "외부고" ⟨5, 4, 100⟩) = none ∧
    ∀ e, tagGrowth "외부고" ⟨5, 4, 100⟩ ∉
      ecGroup (growth_all (load_growth_sheets strangeWorkbook)) e :=
  unmapped_sheet_records strangeWorkbook "외부고" [⟨5, 4, 100⟩]
    (by decide) (by decide) ⟨5, 4, 100⟩ (by decide)

/-! ## School tags on loaded records -/

/-- C8 counterexample: the loader accepts a workbook sheet named 외부고,
so the unified growth table contains a record whose school tag is outside
the fixed 4-school set. -/
theorem growth_tag_outside_schools :
    load_growth_data (some strangeWorkbook) = some (load_growth_sheets strangeWorkbook) ∧
    tagGrowth "외부고" ⟨5, 4, 100⟩ ∈ growth_all (load_growth_sheets strangeWorkbook) ∧
    (tagGrowth "외부고" ⟨5, 4, 100⟩).school = "외부고" ∧
    "외부고" ∉ schools := by
  refine ⟨rfl, by decide, rfl, by decide⟩

/-- C8 amended: every environment record is tagged with one of the fixed
4 schools; every growth record is tagged with its sheet name, and those
tags lie in the fixed school set only when every sheet name does. -/
theorem school_tags (av : String → Option (List EnvRow)) (sheets : Workbook) :
    (∀ p ∈ load_environment_data av, p.1 ∈ schools ∧ ∀ r ∈ p.2, r.school = p.1) ∧
    (∀ p ∈ load_growth_sheets sheets, ∀ r ∈ p.2, r.school = p.1) ∧
    ((∀ p ∈ sheets, p.1 ∈ schools) →
       ∀ r ∈ growth_all (load_growth_sheets sheets), r.school ∈ schools) := by
  refine ⟨?_, ?_, ?_⟩
  · intro p hp
    rcases List.mem_filterMap.mp hp with ⟨s, hs, hmap⟩
    rcases Option.map_eq_some'.mp hmap with ⟨rows, -, hpe⟩
    subst hpe
    refine ⟨hs, ?_⟩
    intro r hr
    rcases List.mem_map.mp hr with ⟨row, -, hre⟩
    subst hre
    rfl
  · intro p hp r hr
    rcases List.mem_map.mp hp with ⟨q, -, hpe⟩
    subst hpe
    rcases List.mem_map.mp hr with ⟨row, -, hre⟩
    subst hre
    rfl
  · intro hall r hr
    rcases List.mem_flatten.mp hr with ⟨l, hl, hrl⟩
    rcases List.mem_map.mp hl with ⟨p, hp, hle⟩
    rcases List.mem_map.mp hp with ⟨q, hq, hpe⟩
    subst hpe
    subst hle
    rcases List.mem_map.mp hrl with ⟨row, -, hre⟩
    subst hre
    exact hall q hq
/-- C8 amended witness at the sample data. -/
theorem school_tags_witness :
    (∀ p ∈ load_environment_data sampleAv, p.1 ∈ schools ∧ ∀ r ∈ p.2, r.school = p.1) ∧
    (∀ r ∈ growth_all (load_growth_sheets sampleWorkbook), r.school ∈ schools) :=
  ⟨(school_tags sampleAv sampleWorkbook).1,
   (school_tags sampleAv sampleWorkbook).2.2 (by decide)⟩

/-! ## Missing environment file and the selected-schools filter -/

/-- When every selected school is present in the mapping, the averages
loop succeeds and yields one row per selected school, in order. -/
theorem avg_rows_ok_of_present (envData : List (String × List EnvRecord)) :
    ∀ sel : List String, (∀ x ∈ sel, (lookupEnv envData x).isSome = true) →
      ∃ rows, avg_rows envData sel = Except.ok rows ∧
        rows.length = sel.length ∧ rows.map EnvAvgRow.school = sel
  | [], _ => ⟨[], rfl, rfl, rfl⟩
  | x :: rest, hall => by
    have hx := hall x (List.mem_cons_self x rest)
    rcases hdf : lookupEnv envData x with - | df
    · rw [hdf] at hx
      exact absurd hx (by simp)
    · obtain ⟨rows, hok, hlen, hmap⟩ :=
        avg_rows_ok_of_present envData rest
          (fun y hy => hall y (List.mem_cons_of_mem x hy))
      refine ⟨envAvgRow x df :: rows, ?_, ?_, ?_⟩
      · simp only [avg_rows, hdf, hok]
      · simp [hlen]
      · simp [hmap, envAvgRow]

/-- When some selected school is absent from the mapping, the averages
loop aborts with the key error of the first absent school. -/
theorem avg_rows_error_of_missing (envData : List (String × List EnvRecord)) :
    ∀ (sel : List String) (x : String), x ∈ sel → lookupEnv envData x = none →
      ∃ y ∈ sel, lookupEnv envData y = none ∧
        avg_rows envData sel = Except.error y
  | [], x, hx, _ => absurd hx (List.not_mem_nil x)
  | z :: rest, x, hx, hxnone => by
    rcases hdz : lookupEnv envData z with - | df
    · exact ⟨z, List.mem_cons_self z rest, hdz, by simp only [avg_rows, hdz]⟩
    · have hx' : x ∈ rest := by
        rcases List.mem_cons.mp hx with rfl | h'
        · rw [hdz] at hxnone
          exact absurd hxnone (by simp)
        · exact h'
      obtain ⟨y, hy, hynone, herr⟩ :=
        avg_rows_error_of_missing envData rest x hx' hxnone
      refine ⟨y, List.mem_cons_of_mem z hy, hynone, ?_⟩
      simp only [avg_rows, hdz, herr]

/-- C6 counterexample: with 동산고's environment file missing, that school
is absent from the mapping while 송도고 is present; yet selecting all four
schools (the default "전체" selection) makes the averages loop abort with
an uncaught key error, so no aggregates are produced for the remaining
present schools either, instead of a handled missing-data condition. -/
theorem env_selected_missing_school_keyerror :
    lookupEnv sampleEnvData "동산고" = none ∧
    lookupEnv sampleEnvData "송도고" ≠ none ∧
    avg_rows sampleEnvData schools = Except.error "동산고" := by
  refine ⟨rfl, by decide, rfl⟩

/-- C6 amended: a school whose environment file is missing is absent from
the loaded mapping; selections naming only present schools still produce
one valid averages row per school; but a selection naming an absent
school aborts with the key-lookup error of the first absent school and
produces no rows at all. -/
theorem env_missing_school_amended (av : String → Option (List EnvRow))
    (s : String) (hmiss : av s = none) :
    lookupEnv (load_environment_data av) s = none ∧
    (∀ (envData : List (String × List EnvRecord)) (sel : List String),
       (∀ x ∈ sel, (lookupEnv envData x).isSome = true) →
       ∃ rows, avg_rows envData sel = Except.ok rows ∧
         rows.length = sel.length ∧ rows.map EnvAvgRow.school = sel) ∧
    (∀ (envData : List (String × List EnvRecord)) (sel : List String) (x : String),
       x ∈ sel → lookupEnv envData x = none →
       ∃ y ∈ sel, lookupEnv envData y = none ∧
         avg_rows envData sel = Except.error y) := by
  refine ⟨?_, avg_rows_ok_of_present, avg_rows_error_of_missing⟩
  have hnone : (load_environment_data av).find? (fun p => p.1 == s) = none := by
    apply List.find?_eq_none.mpr
    intro p hp
    rcases List.mem_filterMap.mp hp with ⟨t, -, hmap⟩
    rcases Option.map_eq_some'.mp hmap with ⟨rows, hrows, hpe⟩
    subst hpe
    simp only [beq_iff_eq]
    intro he
    rw [he] at hrows
    rw [hmiss] at hrows
    exact Option.noConfusion hrows
  simp [lookupEnv, hnone]

/-- C6 amended witness at the sample data: 동산고 absent, a present-only
selection succeeds, the full default selection aborts. -/
theorem env_missing_school_amended_witness :
    lookupEnv (load_environment_data sampleAv) "동산고" = none ∧
    (∃ rows, avg_rows sampleEnvData ["송도고", "하늘고"] = Except.ok rows ∧
      rows.length = 2 ∧ rows.map EnvAvgRow.school = ["송도고", "하늘고"]) ∧
    (∃ y ∈ schools, lookupEnv sampleEnvData y = none ∧
      avg_rows sampleEnvData schools = Except.error y) := by
  refine ⟨(env_missing_school_amended sampleAv "동산고" (by decide)).1, ?_, ?_⟩
  · exact (env_missing_school_amended sampleAv "동산고" (by decide)).2.1
      sampleEnvData ["송도고", "하늘고"] (by decide)
  · exact (env_missing_school_amended sampleAv "동산고" (by decide)).2.2
      sampleEnvData schools "동산고" (by decide) (by decide)
